import Mathlib

/-!
Shallow embedding of the electronics-inventory backend (`backend/index.js`).

The backend is an Express app over a single JSON document
`{products: [...], orders: [...]}`: every route reads the whole document,
mutates it in memory and writes it back.  We embed each route as a pure
function `DB → ... → DB × Except ApiError α`: the returned `DB` is the
document as persisted after the request (unchanged when the route returns an
error before its `writeDB` call), and the `Except` is the JSON response.

JavaScript numbers that can flow through these routes are either (integral)
numbers or `NaN` (from `Number(...)` on a non-numeric string); we model them
as `Option Int` with `none` playing the role of `NaN`.  Request-body fields
are modelled by `JsVal` (string / number / undefined) where JS truthiness
matters, and by `Option String` for fields the API only ever uses as strings.
-/

/-- A JavaScript number as it occurs in this program: an integer, or `NaN`
(`none`).  Fractional values never arise from the integral inputs we model. -/
abbrev JsNum := Option Int

/-- Wrap an integer as a JS number. -/
def jsNum (n : Int) : JsNum := some n

/-- JS `<` on numbers: any comparison involving `NaN` is `false`. -/
def jsLt : JsNum → JsNum → Bool
  | some a, some b => a < b
  | _, _ => false

/-- JS `+` on numbers: `NaN` is absorbing. -/
def jsAdd : JsNum → JsNum → JsNum
  | some a, some b => some (a + b)
  | _, _ => none

/-- JS `-` on numbers: `NaN` is absorbing. -/
def jsSub : JsNum → JsNum → JsNum
  | some a, some b => some (a - b)
  | _, _ => none

/-- JS `x || 0` for a number `x`: `0` and `NaN` are falsy, so the result is
always a real number. -/
def jsOrZero : JsNum → Int
  | some a => if a = 0 then 0 else a
  | none => 0

/-- JS truthiness of a number: `0` and `NaN` are falsy. -/
def jsNumTruthy : JsNum → Bool
  | some a => a != 0
  | none => false

/-- A JSON request-body value where both truthiness and numeric coercion
matter (e.g. the `quantity` field). -/
inductive JsVal where
  | vStr : String → JsVal
  | vNum : JsNum → JsVal
  | vUndef : JsVal
deriving DecidableEq, Repr

/-- JS truthiness of a request value: empty string, `0`, `NaN` and
`undefined` are falsy. -/
def jsTruthy : JsVal → Bool
  | .vStr s => s != ""
  | .vNum n => jsNumTruthy n
  | .vUndef => false

/-- Accumulate decimal digits; `none` marks "no digit seen yet", and any
non-digit character makes the whole parse fail. -/
def parseNatChars : List Char → Option Nat → Option Nat
  | [], acc => acc
  | c :: cs, acc =>
    if c.isDigit then
      parseNatChars cs (some ((acc.getD 0) * 10 + (c.toNat - 48)))
    else none

/-- Parse an optionally `-`-signed decimal integer literal. -/
def strToIntJs (s : String) : Option Int :=
  match s.data with
  | '-' :: rest => (parseNatChars rest none).map (fun n => -(n : Int))
  | l => (parseNatChars l none).map (fun n => (n : Int))

/-- JS `Number(...)` coercion.  `Number("") = 0`; integer literal strings
(optionally signed) parse to their value; other strings are modelled as
`NaN` (we do not model fractional or exotic numeric literals, which never
appear in the claims). -/
def jsToNumber : JsVal → JsNum
  | .vStr s => if s = "" then some 0 else strToIntJs s
  | .vNum n => n
  | .vUndef => none

/-- JS truthiness of an optional string field (`undefined` and `""` falsy). -/
def strTruthy : Option String → Bool
  | some s => s != ""
  | none => false

/-! Case-insensitive substring matching, modelling
`a.toLowerCase().includes(b.toLowerCase())` on the character list level. -/

/-- The lower-cased character list of a string. -/
def lowerChars (s : String) : List Char := s.data.map Char.toLower

/-- Does `needle` occur at the head of `hay`? -/
def seqStarts : List Char → List Char → Bool
  | _, [] => true
  | [], _ :: _ => false
  | h :: hs, n :: ns => h == n && seqStarts hs ns

/-- Does `needle` occur anywhere in `hay` (JS `String.prototype.includes`)? -/
def seqContains : List Char → List Char → Bool
  | [], needle => needle.isEmpty
  | h :: t, needle => seqStarts (h :: t) needle || seqContains t needle

/-- JS `hay.toLowerCase().includes(needle.toLowerCase())`. -/
def ciContains (hay needle : String) : Bool :=
  seqContains (lowerChars hay) (lowerChars needle)

/-! Calendar dates and the JS `Date.prototype.setMonth` month arithmetic used
for warranty expiry. -/

/-- A calendar date as JS `Date` components: `month` is 0-based (0 = Jan),
`day` is 1-based.  Time-of-day fields are untouched by `setMonth` and are
not modelled. -/
structure JsDate where
  year : Int
  month : Nat
  day : Nat
deriving DecidableEq, Repr

/-- Gregorian leap year, as in ECMAScript date arithmetic. -/
def isLeap (y : Int) : Bool :=
  (y % 4 == 0 && y % 100 != 0) || y % 400 == 0

/-- Days in month `m` (0-based) of year `y`. -/
def daysInMonth (y : Int) (m : Nat) : Nat :=
  match m with
  | 0 => 31
  | 1 => if isLeap y then 29 else 28
  | 2 => 31
  | 3 => 30
  | 4 => 31
  | 5 => 30
  | 6 => 31
  | 7 => 31
  | 8 => 30
  | 9 => 31
  | 10 => 30
  | _ => 31

/-- Roll a possibly overflowing day-of-month into the following month, as
ECMAScript `MakeDay` does (day counts past the end of the month spill over;
at most one month of spill is possible since `day ≤ 31`). -/
def rollDay (y : Int) (m : Nat) (day : Nat) : JsDate :=
  if day ≤ daysInMonth y m then ⟨y, m, day⟩
  else
    let rest := day - daysInMonth y m
    if m + 1 = 12 then ⟨y + 1, 0, rest⟩ else ⟨y, m + 1, rest⟩

/-- JS `d.setMonth(d.getMonth() + k)`: months roll into years, and an
overflowing day-of-month rolls into the next month (not clamped). -/
def jsAddMonths (d : JsDate) (k : Int) : JsDate :=
  let total : Int := d.year * 12 + d.month + k
  let y := total.fdiv 12
  let m := (total.fmod 12).toNat
  rollDay y m d.day

/-! The data model: products, orders, and the persisted document. -/

/-- Order lifecycle states. -/
inductive OrderStatus where
  | PENDING
  | APPROVED
  | REJECTED
deriving DecidableEq, Repr

/-- A product record as stored in the document.  `stock`, `price` and
`warrantyMonths` are JS numbers; creation coerces the latter two with
`Number(x) || 0`, so they are always real, but `stock` can become `NaN`
through the stock-adjust route, hence `JsNum`. -/
structure Product where
  id : String
  name : String
  price : Int
  warrantyMonths : Int
  category : String
  stock : JsNum
  image : Option String
  createdAt : JsDate
deriving DecidableEq, Repr

/-- An order record as stored in the document. -/
structure Order where
  id : String
  name : String
  phone : String
  productId : String
  quantity : JsNum
  serialNumber : Option String
  status : OrderStatus
  createdAt : JsDate
  approvedAt : Option JsDate := none
  warrantyExpiry : Option JsDate := none
  rejectedAt : Option JsDate := none
deriving DecidableEq, Repr

/-- The persisted JSON document: `{products: [...], orders: [...]}`. -/
structure DB where
  products : List Product
  orders : List Order
deriving DecidableEq, Repr

/-- Error responses: HTTP 400 / 404 with `{error: message}`. -/
inductive ApiError where
  | BadRequest : String → ApiError
  | NotFound : String → ApiError
deriving DecidableEq, Repr

/-- Replace the first element satisfying `p` by its image under `f`
(JS mutates the object returned by `Array.prototype.find`). -/
def updateFirst (p : α → Bool) (f : α → α) : List α → List α
  | [] => []
  | x :: xs => if p x then f x :: xs else x :: updateFirst p f xs

/-! The routes. -/

/-- JS `v || 0` at the request-value level (used for `addQuantity || 0`). -/
def jsOrZeroVal (v : JsVal) : JsVal :=
  if jsTruthy v then v else .vNum (some 0)

/-- Does a product match the free-text query `q` (already compared
case-insensitively)?  Source: `p.name.toLowerCase().includes(qq) ||
(p.category || "").toLowerCase().includes(qq)`; `category` is always a
string in our model, so `|| ""` is the identity. -/
def productHit (q : String) (p : Product) : Bool :=
  ciContains p.name q || ciContains p.category q

/-- GET `/api/products?q=&category=`: optional free-text filter, then
optional exact (case-insensitive) category filter. -/
def getProducts (db : DB) (q category : Option String) : List Product :=
  let items := db.products
  let items := if strTruthy q then items.filter (productHit (q.getD "")) else items
  if strTruthy category then
    items.filter (fun p => lowerChars p.category == lowerChars (category.getD ""))
  else items

/-- GET `/api/products/:id`. -/
def getProduct (db : DB) (id : String) : Except ApiError Product :=
  match db.products.find? (fun x => x.id == id) with
  | none => .error (.NotFound "Product not found")
  | some p => .ok p

/-- Request body of POST `/api/admin/product` (multipart form; every field
arrives as a string or is absent, `image` is the stored upload path). -/
structure ProductReq where
  name : Option String
  price : JsVal
  warrantyMonths : JsVal
  category : Option String
  initialStock : JsVal
  image : Option String
deriving DecidableEq, Repr

/-- POST `/api/admin/product`: destructuring defaults (`warrantyMonths = 0`,
`initialStock = 0`) coincide with `Number(undefined) || 0 = 0`, and
`category = "General"` is `Option.getD`. -/
def addProduct (db : DB) (r : ProductReq) (newId : String) (now : JsDate) :
    DB × Except ApiError Product :=
  if !strTruthy r.name then (db, .error (.BadRequest "Product name required"))
  else
    let p : Product :=
      { id := newId
        name := r.name.getD ""
        price := jsOrZero (jsToNumber r.price)
        warrantyMonths := jsOrZero (jsToNumber r.warrantyMonths)
        category := r.category.getD "General"
        stock := jsNum (jsOrZero (jsToNumber r.initialStock))
        image := r.image
        createdAt := now }
    ({ db with products := db.products ++ [p] }, .ok p)

/-- POST `/api/admin/stock`: `p.stock = (p.stock || 0) + Number(addQuantity || 0)`
on the product found by id; no lower bound is enforced. -/
def adjustStock (db : DB) (productId : Option String) (addQuantity : JsVal) :
    DB × Except ApiError Product :=
  let bump := fun (x : Product) =>
    { x with stock := jsAdd (jsNum (jsOrZero x.stock)) (jsToNumber (jsOrZeroVal addQuantity)) }
  match db.products.find? (fun x => some x.id == productId) with
  | none => (db, .error (.NotFound "Product not found"))
  | some p =>
    ({ db with products := updateFirst (fun x => some x.id == productId) bump db.products },
     .ok (bump p))

/-- Request body of POST `/api/orders`.  `quantity` keeps full JS-value
semantics (string vs number matters for truthiness and coercion); the other
fields are only ever used as strings. -/
structure OrderReq where
  name : Option String
  phone : Option String
  productId : Option String
  quantity : JsVal
  serialNumber : Option String
deriving DecidableEq, Repr

/-- The PENDING order record built by POST `/api/orders`
(`serialNumber || null`, `quantity: Number(quantity)`). -/
def mkPendingOrder (r : OrderReq) (newId : String) (now : JsDate) : Order :=
  { id := newId
    name := r.name.getD ""
    phone := r.phone.getD ""
    productId := r.productId.getD ""
    quantity := jsToNumber r.quantity
    serialNumber := if strTruthy r.serialNumber then r.serialNumber else none
    status := .PENDING
    createdAt := now }

/-- POST `/api/orders`: missing-field truthiness check, product lookup,
`product.stock < Number(quantity)` check, then append a PENDING order.
Stock is not decremented at creation time. -/
def createOrder (db : DB) (r : OrderReq) (newId : String) (now : JsDate) :
    DB × Except ApiError Order :=
  if !(strTruthy r.name && strTruthy r.phone && strTruthy r.productId && jsTruthy r.quantity) then
    (db, .error (.BadRequest "Missing fields"))
  else
    match db.products.find? (fun p => some p.id == r.productId) with
    | none => (db, .error (.NotFound "Product not found"))
    | some product =>
      if jsLt product.stock (jsToNumber r.quantity) then
        (db, .error (.BadRequest "Not enough stock"))
      else
        let order := mkPendingOrder r newId now
        ({ db with orders := db.orders ++ [order] }, .ok order)

/-- POST `/api/admin/orders/:id/approve`: guards (order exists, PENDING,
product exists, `(product.stock || 0) < order.quantity` fails), then
decrements stock by the order quantity (`product.stock -= order.quantity`,
without `|| 0`), stamps `approvedAt := now`, computes `warrantyExpiry` when
`warrantyMonths && warrantyMonths > 0`, and sets the status to APPROVED. -/
def approveOrder (db : DB) (orderId : String) (now : JsDate) :
    DB × Except ApiError Order :=
  match db.orders.find? (fun o => o.id == orderId) with
  | none => (db, .error (.NotFound "Order not found"))
  | some order =>
    if order.status ≠ OrderStatus.PENDING then (db, .error (.BadRequest "Order not pending"))
    else
      match db.products.find? (fun p => p.id == order.productId) with
      | none => (db, .error (.NotFound "Product not found for order"))
      | some product =>
        if jsLt (jsNum (jsOrZero product.stock)) order.quantity then
          (db, .error (.BadRequest "Insufficient stock"))
        else
          let warrantyExpiry :=
            if product.warrantyMonths ≠ 0 ∧ product.warrantyMonths > 0 then
              some (jsAddMonths now product.warrantyMonths)
            else none
          let updOrder := fun (o : Order) =>
            { o with status := OrderStatus.APPROVED
                     approvedAt := some now
                     warrantyExpiry := warrantyExpiry }
          ({ products := updateFirst (fun p => p.id == order.productId)
                (fun p => { p with stock := jsSub p.stock order.quantity }) db.products
             orders := updateFirst (fun o => o.id == orderId) updOrder db.orders },
           .ok (updOrder order))

/-- POST `/api/admin/orders/:id/reject`: no status guard at all — any found
order is set to REJECTED and stamped `rejectedAt`. -/
def rejectOrder (db : DB) (orderId : String) (now : JsDate) :
    DB × Except ApiError Order :=
  let upd := fun (o : Order) =>
    { o with status := OrderStatus.REJECTED, rejectedAt := some now }
  match db.orders.find? (fun o => o.id == orderId) with
  | none => (db, .error (.NotFound "Order not found"))
  | some order =>
    ({ db with orders := updateFirst (fun o => o.id == orderId) upd db.orders },
     .ok (upd order))

/-- Response shape of GET `/api/search`: `[]` for a falsy query, otherwise
`{products, orders}`. -/
inductive SearchResult where
  | emptyArr : SearchResult
  | results : List Product → List Order → SearchResult
deriving DecidableEq, Repr

/-- Does an order match the search query?  Source:
`(o.name && o.name.toLowerCase().includes(qq)) ||
 (o.serialNumber && o.serialNumber.toLowerCase().includes(qq))`. -/
def orderHit (q : String) (o : Order) : Bool :=
  (o.name != "" && ciContains o.name q) ||
    (match o.serialNumber with
     | some s => s != "" && ciContains s q
     | none => false)

/-- GET `/api/search?q=`. -/
def searchApi (db : DB) (q : Option String) : SearchResult :=
  if !strTruthy q then .emptyArr
  else
    .results (db.products.filter (productHit (q.getD "")))
      (db.orders.filter (orderHit (q.getD "")))

/-! Helper lemmas about `updateFirst`, `find?` and the JS-number helpers. -/

theorem length_updateFirst (p : α → Bool) (f : α → α) (l : List α) :
    (updateFirst p f l).length = l.length := by
  induction l with
  | nil => rfl
  | cons x xs ih =>
    simp only [updateFirst]
    split <;> simp [ih]

theorem find?_updateFirst (p : α → Bool) (f : α → α)
    (hf : ∀ a, p (f a) = p a) (l : List α) :
    (updateFirst p f l).find? p = (l.find? p).map f := by
  induction l with
  | nil => rfl
  | cons x xs ih =>
    by_cases h : p x = true
    · simp [updateFirst, List.find?_cons, h, hf]
    · simp only [Bool.not_eq_true] at h
      simp [updateFirst, List.find?_cons, h, ih]

theorem mem_updateFirst (p : α → Bool) (f : α → α) {l : List α} {a : α}
    (hfind : l.find? p = some a) :
    ∀ x ∈ updateFirst p f l, x ∈ l ∨ x = f a := by
  induction l with
  | nil => simp at hfind
  | cons y ys ih =>
    by_cases h : p y = true
    · rw [List.find?_cons] at hfind
      simp [h] at hfind
      intro x hx
      simp only [updateFirst, h, if_true] at hx
      rcases List.mem_cons.mp hx with rfl | hx
      · right; rw [hfind]
      · left; exact List.mem_cons_of_mem _ hx
    · rw [List.find?_cons] at hfind
      simp only [Bool.not_eq_true] at h
      simp [h] at hfind
      intro x hx
      simp only [updateFirst, h] at hx
      rcases List.mem_cons.mp hx with rfl | hx
      · left; exact List.mem_cons_self _ _
      · rcases ih hfind x hx with h1 | h2
        · left; exact List.mem_cons_of_mem _ h1
        · right; exact h2

theorem get_updateFirst (p : α → Bool) (f : α → α) (l : List α) (i : Nat)
    (h : i < l.length) (h' : i < (updateFirst p f l).length) :
    (updateFirst p f l).get ⟨i, h'⟩ = l.get ⟨i, h⟩ ∨
      (p (l.get ⟨i, h⟩) = true ∧
        (updateFirst p f l).get ⟨i, h'⟩ = f (l.get ⟨i, h⟩)) := by
  induction l generalizing i with
  | nil => simp at h
  | cons y ys ih =>
    by_cases hp : p y = true
    · cases i with
      | zero => right; exact ⟨hp, by simp [updateFirst, hp]⟩
      | succ j => left; simp [updateFirst, hp]
    · simp only [Bool.not_eq_true] at hp
      cases i with
      | zero => left; simp [updateFirst, hp]
      | succ j =>
        have h2 : j < ys.length := by simpa using h
        have h2' : j < (updateFirst p f ys).length := by
          rw [length_updateFirst]; exact h2
        rcases ih j h2 h2' with h3 | ⟨h3, h4⟩
        · left; simpa [updateFirst, hp] using h3
        · right
          refine ⟨by simpa using h3, ?_⟩
          simpa [updateFirst, hp] using h4

theorem jsOrZero_some (s : Int) : jsOrZero (some s) = s := by
  show (if s = 0 then 0 else s) = s
  split <;> omega

/-- A successful-approval stock decrement can never be negative under JS
`<`: either both numbers are real and the guard gave `stock ≥ quantity`, or
`NaN` is involved, and `NaN < 0` is `false`. -/
theorem jsSub_nonneg (stock qty : JsNum)
    (hg : jsLt (jsNum (jsOrZero stock)) qty = false) :
    jsLt (jsSub stock qty) (jsNum 0) = false := by
  cases stock with
  | none => rfl
  | some s =>
    cases qty with
    | none => rfl
    | some q =>
      rw [jsOrZero_some] at hg
      simp [jsLt, jsNum] at hg
      simp [jsSub, jsLt, jsNum]
      omega

/-- The APPROVED order record produced by a successful approval. -/
def approvedOrderOf (order : Order) (product : Product) (now : JsDate) : Order :=
  { order with
      status := OrderStatus.APPROVED
      approvedAt := some now
      warrantyExpiry :=
        if product.warrantyMonths ≠ 0 ∧ product.warrantyMonths > 0 then
          some (jsAddMonths now product.warrantyMonths)
        else none }

/-- Inversion of a successful approval: the guards all passed and the
resulting document is the input with the first matching product's stock
decremented and the first matching order stamped APPROVED. -/
theorem approve_ok_inv {db : DB} {oid : String} {now : JsDate} {db2 : DB} {o2 : Order}
    (h : approveOrder db oid now = (db2, .ok o2)) :
    ∃ order product,
      db.orders.find? (fun o => o.id == oid) = some order ∧
      order.status = OrderStatus.PENDING ∧
      db.products.find? (fun p => p.id == order.productId) = some product ∧
      jsLt (jsNum (jsOrZero product.stock)) order.quantity = false ∧
      db2.products = updateFirst (fun p => p.id == order.productId)
        (fun p => { p with stock := jsSub p.stock order.quantity }) db.products ∧
      db2.orders = updateFirst (fun o => o.id == oid)
        (fun o => { o with
                    status := OrderStatus.APPROVED
                    approvedAt := some now
                    warrantyExpiry := (approvedOrderOf order product now).warrantyExpiry })
        db.orders ∧
      o2 = approvedOrderOf order product now := by
  unfold approveOrder at h
  split at h
  · simp at h
  rename_i order hfo
  split at h
  · simp at h
  rename_i hpending
  split at h
  · simp at h
  rename_i product hfp
  split at h
  · simp at h
  rename_i hguard
  simp only [Prod.mk.injEq, Except.ok.injEq] at h
  obtain ⟨h1, h2⟩ := h
  refine ⟨order, product, hfo, ?_, hfp, ?_, ?_, ?_, ?_⟩
  · by_contra hne
    exact hpending hne
  · simpa using hguard
  · rw [← h1]
  · rw [← h1]; rfl
  · rw [← h2]; rfl

/-- Inversion of a successful rejection. -/
theorem reject_ok_inv {db : DB} {oid : String} {now : JsDate} {db2 : DB} {o2 : Order}
    (h : rejectOrder db oid now = (db2, .ok o2)) :
    ∃ order,
      db.orders.find? (fun o => o.id == oid) = some order ∧
      db2.products = db.products ∧
      db2.orders = updateFirst (fun o => o.id == oid)
        (fun o => { o with status := OrderStatus.REJECTED, rejectedAt := some now })
        db.orders ∧
      o2 = { order with status := OrderStatus.REJECTED, rejectedAt := some now } := by
  unfold rejectOrder at h
  split at h
  · simp at h
  rename_i order hfo
  simp only [Prod.mk.injEq, Except.ok.injEq] at h
  obtain ⟨h1, h2⟩ := h
  exact ⟨order, hfo, by rw [← h1], by rw [← h1], by rw [← h2]⟩

/-! Concrete fixtures used by witnesses and counterexamples. -/

/-- A fixed "current time" for the deterministic fixtures. -/
def d0 : JsDate := ⟨2024, 0, 15⟩

/-- Fixture product with stock 5 and no warranty. -/
def prodW : Product :=
  { id := "p1", name := "Widget", price := 10, warrantyMonths := 0,
    category := "General", stock := some 5, image := none, createdAt := d0 }

/-- Fixture PENDING order for two units of `prodW`. -/
def ordW : Order :=
  { id := "o1", name := "Ada", phone := "123", productId := "p1",
    quantity := some 2, serialNumber := none, status := .PENDING, createdAt := d0 }

/-- Fixture document holding `prodW` and `ordW`. -/
def dbW : DB := { products := [prodW], orders := [ordW] }

/-- The document after approving `ordW` in `dbW`. -/
def dbW2 : DB :=
  { products := [{ prodW with stock := some 3 }],
    orders := [{ ordW with status := .APPROVED, approvedAt := some d0 }] }

/-- The response order of that approval. -/
def ordW2 : Order := { ordW with status := .APPROVED, approvedAt := some d0 }

/-- C1: a successful approval decrements the referenced product's stock by
the order quantity, sets the order status to APPROVED and stamps
`approvedAt`; when the current stock is below the order quantity the
approval fails with BadRequest, and a successful approval never leaves the
stock negative. -/
theorem approve_stock_decrement (db : DB) (oid : String) (now : JsDate)
    (order : Order) (product : Product)
    (hfo : db.orders.find? (fun o => o.id == oid) = some order)
    (hfp : db.products.find? (fun p => p.id == order.productId) = some product) :
    (order.status = OrderStatus.PENDING →
      jsLt (jsNum (jsOrZero product.stock)) order.quantity = true →
      approveOrder db oid now = (db, Except.error (ApiError.BadRequest "Insufficient stock"))) ∧
    (∀ db2 o2, approveOrder db oid now = (db2, Except.ok o2) →
      db2.products.find? (fun p => p.id == order.productId) =
        some { product with stock := jsSub product.stock order.quantity } ∧
      o2.status = OrderStatus.APPROVED ∧
      o2.approvedAt = some now ∧
      jsLt (jsSub product.stock order.quantity) (jsNum 0) = false) := by
  constructor
  · intro hp hg
    unfold approveOrder
    rw [hfo]
    simp [hp, hfp, hg]
  · intro db2 o2 h
    obtain ⟨order', product', hfo', hp', hfp', hg', hdp, hdo, ho2⟩ := approve_ok_inv h
    rw [hfo] at hfo'
    injection hfo' with he
    subst he
    rw [hfp] at hfp'
    injection hfp' with he2
    subst he2
    refine ⟨?_, ?_, ?_, ?_⟩
    · rw [hdp,
        find?_updateFirst (fun p => p.id == order.productId)
          (fun p => { p with stock := jsSub p.stock order.quantity }) (fun a => rfl)
          db.products,
        hfp]
      rfl
    · rw [ho2]; rfl
    · rw [ho2]; rfl
    · exact jsSub_nonneg product.stock order.quantity hg'

/-- C1 witness: approving the fixture order takes the stock from 5 to 3. -/
theorem approve_stock_decrement_witness :
    dbW2.products.find? (fun p => p.id == ordW.productId) =
      some { prodW with stock := jsSub prodW.stock ordW.quantity } ∧
    ordW2.status = OrderStatus.APPROVED ∧
    ordW2.approvedAt = some d0 ∧
    jsLt (jsSub prodW.stock ordW.quantity) (jsNum 0) = false :=
  (approve_stock_decrement dbW "o1" d0 ordW prodW (by decide) (by decide)).2
    dbW2 ordW2 (by rfl)

/-- Product-creation request used to build a reachable document. -/
def reqPhone : ProductReq :=
  { name := some "Phone", price := .vStr "100", warrantyMonths := .vUndef,
    category := none, initialStock := .vStr "0", image := none }

/-- A reachable document: the empty document after one product creation
(stock 0). -/
def dbP : DB := (addProduct ⟨[], []⟩ reqPhone "p1" d0).1

/-- The product stored in `dbP`. -/
def prodPhone : Product :=
  { id := "p1", name := "Phone", price := 100, warrantyMonths := 0,
    category := "General", stock := some 0, image := none, createdAt := d0 }

/-- C2 counterexample: from a reachable document whose only product has
stock 0 (not negative), one stock-adjust request with `addQuantity = -5`
drives the stock to -5, so `stock >= 0` is not preserved by the
stock-adjust operation. -/
theorem stock_invariant_counterexample :
    dbP.products = [prodPhone] ∧
    jsLt prodPhone.stock (jsNum 0) = false ∧
    (adjustStock dbP (some "p1") (JsVal.vNum (some (-5)))).1.products =
      [{ prodPhone with stock := some (-5) }] ∧
    jsLt (some (-5) : JsNum) (jsNum 0) = true := by
  refine ⟨by decide, by decide, by decide, by decide⟩

/-- C2 amended: `stock >= 0` is enforced by the approval route (a
successful approval never introduces a negative stock into a document
whose stocks were all non-negative), but it is not a document invariant:
the stock-adjust route accepts a negative `addQuantity` with no lower
bound and can drive a stock negative. -/
theorem approve_preserves_stock_nonneg (db : DB) (oid : String) (now : JsDate)
    (db2 : DB) (o2 : Order)
    (hnn : ∀ p ∈ db.products, jsLt p.stock (jsNum 0) = false)
    (h : approveOrder db oid now = (db2, Except.ok o2)) :
    ∀ p ∈ db2.products, jsLt p.stock (jsNum 0) = false := by
  obtain ⟨order, product, hfo, hp, hfp, hg, hdp, hdo, ho2⟩ := approve_ok_inv h
  intro x hx
  rw [hdp] at hx
  rcases mem_updateFirst _ _ hfp x hx with hmem | rfl
  · exact hnn x hmem
  · exact jsSub_nonneg product.stock order.quantity hg

/-- C2 amended witness: the fixture approval keeps all stocks
non-negative. -/
theorem approve_preserves_stock_nonneg_witness :
    jsLt ({ prodW with stock := jsSub prodW.stock ordW.quantity } : Product).stock
      (jsNum 0) = false :=
  approve_preserves_stock_nonneg dbW "o1" d0 dbW2 ordW2 (by decide) (by rfl)
    _ (by decide)

/-- C3: approving an order whose status is not PENDING fails with
BadRequest and leaves the document unchanged; in particular, after a
successful approval a second approval of the same order fails with
"Order not pending" and does not change the document again. -/
theorem approve_requires_pending (db : DB) (oid : String) (now : JsDate) :
    (∀ order, db.orders.find? (fun o => o.id == oid) = some order →
      order.status ≠ OrderStatus.PENDING →
      approveOrder db oid now = (db, Except.error (ApiError.BadRequest "Order not pending"))) ∧
    (∀ db2 o2 now2, approveOrder db oid now = (db2, Except.ok o2) →
      approveOrder db2 oid now2 = (db2, Except.error (ApiError.BadRequest "Order not pending"))) := by
  constructor
  · intro order hfo hs
    unfold approveOrder
    rw [hfo]
    simp [hs]
  · intro db2 o2 now2 h
    obtain ⟨order, product, hfo, hp, hfp, hg, hdp, hdo, ho2⟩ := approve_ok_inv h
    have hfind2 : db2.orders.find? (fun o => o.id == oid) =
        some { order with
               status := OrderStatus.APPROVED
               approvedAt := some now
               warrantyExpiry := (approvedOrderOf order product now).warrantyExpiry } := by
      rw [hdo,
        find?_updateFirst (fun o => o.id == oid)
          (fun o => { o with
                      status := OrderStatus.APPROVED
                      approvedAt := some now
                      warrantyExpiry := (approvedOrderOf order product now).warrantyExpiry })
          (fun a => rfl) db.orders,
        hfo]
      rfl
    unfold approveOrder
    rw [hfind2]
    simp

/-- C3 witness: re-approving the fixture order after its approval fails
with "Order not pending". -/
theorem approve_requires_pending_witness :
    approveOrder dbW2 "o1" d0 =
      (dbW2, Except.error (ApiError.BadRequest "Order not pending")) :=
  (approve_requires_pending dbW "o1" d0).2 dbW2 ordW2 d0 (by rfl)

/-- Fixture already-rejected order and its document. -/
def ordR : Order :=
  { id := "o2", name := "Bob", phone := "456", productId := "p1",
    quantity := some 1, serialNumber := some "SN7", status := .REJECTED,
    createdAt := d0, rejectedAt := some d0 }

/-- Fixture document holding `prodW` and the already-rejected `ordR`. -/
def dbR : DB := { products := [prodW], orders := [ordR] }

/-- C4: the reject route has no status guard: for any found order —
whatever its status, including REJECTED or APPROVED — it succeeds, sets
the status to REJECTED, stamps `rejectedAt` and persists; it fails (with
NotFound) exactly when the order id is absent. -/
theorem reject_unconditional (db : DB) (oid : String) (now : JsDate) :
    (db.orders.find? (fun o => o.id == oid) = none ↔
      rejectOrder db oid now = (db, Except.error (ApiError.NotFound "Order not found"))) ∧
    (∀ order, db.orders.find? (fun o => o.id == oid) = some order →
      rejectOrder db oid now =
        (DB.mk db.products
          (updateFirst (fun o => o.id == oid)
            (fun o => { o with status := OrderStatus.REJECTED, rejectedAt := some now })
            db.orders),
         Except.ok { order with status := OrderStatus.REJECTED, rejectedAt := some now })) := by
  constructor
  · constructor
    · intro hn
      unfold rejectOrder
      rw [hn]
    · intro he
      cases hf : db.orders.find? (fun o => o.id == oid) with
      | none => rfl
      | some order =>
        unfold rejectOrder at he
        rw [hf] at he
        simp at he
  · intro order hf
    unfold rejectOrder
    rw [hf]

/-- C4 witness: rejecting the already-REJECTED fixture order succeeds
again. -/
theorem reject_unconditional_witness :
    rejectOrder dbR "o2" d0 =
      (DB.mk dbR.products
        (updateFirst (fun o => o.id == "o2")
          (fun o => { o with status := OrderStatus.REJECTED, rejectedAt := some d0 })
          dbR.orders),
       Except.ok { ordR with status := OrderStatus.REJECTED, rejectedAt := some d0 }) :=
  (reject_unconditional dbR "o2" d0).2 ordR (by decide)

/-- Fixture product with a 3-month warranty. -/
def prodG : Product :=
  { id := "p2", name := "Gadget", price := 20, warrantyMonths := 3,
    category := "General", stock := some 5, image := none, createdAt := d0 }

/-- Fixture PENDING order for one `prodG`. -/
def ordG : Order :=
  { id := "o3", name := "Cleo", phone := "789", productId := "p2",
    quantity := some 1, serialNumber := none, status := .PENDING, createdAt := d0 }

/-- Fixture document for the warranty claim. -/
def dbG : DB := { products := [prodG], orders := [ordG] }

/-- 2024-01-31, the rollover example date of the spec. -/
def dJan31 : JsDate := ⟨2024, 0, 31⟩

/-- The response order of approving `ordG` on 2024-01-31: three months
later with day-31 overflow lands on 2024-05-01 (month index 4). -/
def ordG2 : Order :=
  { ordG with
    status := .APPROVED
    approvedAt := some dJan31
    warrantyExpiry := some ⟨2024, 4, 1⟩ }

/-- The document after that approval. -/
def dbG2 : DB :=
  { products := [{ prodG with stock := some 4 }], orders := [ordG2] }

/-- C5: a successful approval sets `warrantyExpiry` to `approvedAt`
advanced by `warrantyMonths` calendar months under the JS `setMonth`
rollover rule (Jan 31 + 3 months lands on May 1, not a clamped Apr 30),
and leaves it null when `warrantyMonths` is 0 (or negative). -/
theorem warranty_expiry_spec (db : DB) (oid : String) (now : JsDate)
    (order : Order) (product : Product)
    (hfo : db.orders.find? (fun o => o.id == oid) = some order)
    (hfp : db.products.find? (fun p => p.id == order.productId) = some product) :
    (∀ db2 o2, approveOrder db oid now = (db2, Except.ok o2) →
      (product.warrantyMonths > 0 →
        o2.warrantyExpiry = some (jsAddMonths now product.warrantyMonths)) ∧
      (product.warrantyMonths ≤ 0 → o2.warrantyExpiry = none)) ∧
    jsAddMonths dJan31 3 = ⟨2024, 4, 1⟩ := by
  constructor
  · intro db2 o2 h
    obtain ⟨order', product', hfo', hp', hfp', hg', hdp, hdo, ho2⟩ := approve_ok_inv h
    rw [hfo] at hfo'
    injection hfo' with he
    subst he
    rw [hfp] at hfp'
    injection hfp' with he2
    subst he2
    constructor
    · intro hw
      have hne : product.warrantyMonths ≠ 0 := by omega
      rw [ho2]
      simp [approvedOrderOf, hne, hw]
    · intro hw
      have hng : ¬ product.warrantyMonths > 0 := by omega
      rw [ho2]
      simp [approvedOrderOf, hng]
  · decide

/-- C5 witness: approving `ordG` on 2024-01-31 yields warrantyExpiry
2024-05-01. -/
theorem warranty_expiry_witness :
    (0 < prodG.warrantyMonths ∧
      ordG2.warrantyExpiry = some (jsAddMonths dJan31 prodG.warrantyMonths)) ∧
    jsAddMonths dJan31 3 = ⟨2024, 4, 1⟩ :=
  ⟨⟨by decide,
    ((warranty_expiry_spec dbG "o3" dJan31 ordG prodG (by decide) (by decide)).1
      dbG2 ordG2 (by rfl)).1 (by decide)⟩,
   (warranty_expiry_spec dbG "o3" dJan31 ordG prodG (by decide) (by decide)).2⟩

/-- C6: order creation fails with BadRequest when a required field is
falsy, NotFound when the product is absent, BadRequest "Not enough stock"
when `product.stock < quantity` — each without mutating the document —
and otherwise appends a PENDING order, leaving product stocks untouched. -/
theorem create_order_spec (db : DB) (r : OrderReq) (newId : String) (now : JsDate) :
    ((strTruthy r.name && strTruthy r.phone && strTruthy r.productId && jsTruthy r.quantity) = false →
      createOrder db r newId now = (db, Except.error (ApiError.BadRequest "Missing fields"))) ∧
    ((strTruthy r.name && strTruthy r.phone && strTruthy r.productId && jsTruthy r.quantity) = true →
      (db.products.find? (fun p => some p.id == r.productId) = none →
        createOrder db r newId now = (db, Except.error (ApiError.NotFound "Product not found"))) ∧
      (∀ product, db.products.find? (fun p => some p.id == r.productId) = some product →
        (jsLt product.stock (jsToNumber r.quantity) = true →
          createOrder db r newId now = (db, Except.error (ApiError.BadRequest "Not enough stock"))) ∧
        (jsLt product.stock (jsToNumber r.quantity) = false →
          createOrder db r newId now =
            (DB.mk db.products (db.orders ++ [mkPendingOrder r newId now]),
             Except.ok (mkPendingOrder r newId now)) ∧
          (mkPendingOrder r newId now).status = OrderStatus.PENDING))) := by
  constructor
  · intro hm
    unfold createOrder
    simp [hm]
  · intro hc
    refine ⟨?_, ?_⟩
    · intro hn
      unfold createOrder
      simp [hc, hn]
    · intro product hf
      constructor
      · intro hlt
        unfold createOrder
        simp [hc, hf, hlt]
      · intro hge
        refine ⟨?_, rfl⟩
        unfold createOrder
        simp [hc, hf, hge]

/-- Fixture order-creation request for two units of `prodW`. -/
def reqOrd : OrderReq :=
  { name := some "Ada", phone := some "123", productId := some "p1",
    quantity := .vStr "2", serialNumber := some "SN1" }

/-- C6 witness: the fixture request passes all checks and appends a
PENDING order. -/
theorem create_order_spec_witness :
    createOrder dbW reqOrd "o4" d0 =
      (DB.mk dbW.products (dbW.orders ++ [mkPendingOrder reqOrd "o4" d0]),
       Except.ok (mkPendingOrder reqOrd "o4" d0)) ∧
    (mkPendingOrder reqOrd "o4" d0).status = OrderStatus.PENDING :=
  (((create_order_spec dbW reqOrd "o4" d0).2 (by decide)).2 prodW (by decide)).2 (by decide)

/-- The claim-side order predicate for search: customer name or serial
number contains the query, case-insensitively, with no truthiness guards. -/
def orderMatchSpec (q : String) (o : Order) : Bool :=
  ciContains o.name q ||
    (match o.serialNumber with
     | some s => ciContains s q
     | none => false)

theorem ciContains_empty_hay (q : String) (hq : q ≠ "") :
    ciContains "" q = false := by
  have hd : q.data ≠ [] := by
    intro h
    apply hq
    apply String.ext
    rw [h]
  show (lowerChars q).isEmpty = false
  unfold lowerChars
  cases hnil : q.data with
  | nil => exact absurd hnil hd
  | cons c cs => rfl

/-- For a nonempty query, the code's truthiness guards on `o.name` and
`o.serialNumber` change nothing: an empty string never contains a
nonempty query. -/
theorem orderHit_eq_spec (q : String) (hq : q ≠ "") (o : Order) :
    orderHit q o = orderMatchSpec q o := by
  have hname : (o.name != "" && ciContains o.name q) = ciContains o.name q := by
    by_cases hn : o.name = ""
    · rw [hn, ciContains_empty_hay q hq]
      rfl
    · have hb : (o.name != "") = true := bne_iff_ne.mpr hn
      rw [hb, Bool.true_and]
  unfold orderHit orderMatchSpec
  rw [hname]
  congr 1
  cases o.serialNumber with
  | none => rfl
  | some s =>
    show (s != "" && ciContains s q) = ciContains s q
    by_cases hse : s = ""
    · rw [hse, ciContains_empty_hay q hq]
      rfl
    · have hb : (s != "") = true := bne_iff_ne.mpr hse
      rw [hb, Bool.true_and]

/-- C7: search with a falsy query (absent or empty) returns the empty
array result, not the object shape; with a nonempty query it returns
`{products, orders}` where products match on name/category and orders on
customer name/serial number, case-insensitively, preserving collection
order (they are filters of the stored sequences). -/
theorem search_shape_spec (db : DB) (q : String) (hq : q ≠ "") :
    searchApi db none = SearchResult.emptyArr ∧
    searchApi db (some "") = SearchResult.emptyArr ∧
    searchApi db (some q) =
      SearchResult.results (db.products.filter (productHit q))
        (db.orders.filter (orderMatchSpec q)) := by
  refine ⟨rfl, rfl, ?_⟩
  unfold searchApi
  have ht : strTruthy (some q) = true := by simp [strTruthy, hq]
  rw [ht]
  simp only [Bool.not_true, Bool.false_eq_true, if_false, Option.getD_some]
  congr 1
  exact List.filter_congr (fun o _ => orderHit_eq_spec q hq o)

/-- C7 witness: concrete search over the fixture document. -/
theorem search_shape_witness :
    searchApi dbR none = SearchResult.emptyArr ∧
    searchApi dbR (some "") = SearchResult.emptyArr ∧
    searchApi dbR (some "bob") =
      SearchResult.results (dbR.products.filter (productHit "bob"))
        (dbR.orders.filter (orderMatchSpec "bob")) :=
  search_shape_spec dbR "bob" (by decide)

/-- C8: with both filters present, the product list is exactly the
products passing the free-text filter AND the exact case-insensitive
category filter, as one filter of the stored sequence (order
preserved). -/
theorem products_filter_spec (db : DB) (qs cs : String) (hq : qs ≠ "") (hc : cs ≠ "") :
    getProducts db (some qs) (some cs) =
      db.products.filter
        (fun p => (lowerChars p.category == lowerChars cs) && productHit qs p) := by
  unfold getProducts
  have h1 : strTruthy (some qs) = true := by simp [strTruthy, hq]
  have h2 : strTruthy (some cs) = true := by simp [strTruthy, hc]
  rw [h1, h2]
  simp only [if_true, Option.getD_some]
  exact List.filter_filter _ _

/-- C8 witness: combined filtering over the fixture document. -/
theorem products_filter_witness :
    getProducts dbW (some "wid") (some "general") =
      dbW.products.filter
        (fun p => (lowerChars p.category == lowerChars "general") && productHit "wid" p) :=
  products_filter_spec dbW "wid" "general" (by decide) (by decide)

/-- Forward evaluation of a successful approval: when all guards pass,
`approveOrder` returns the updated document and APPROVED order. -/
theorem approve_ok_fwd (db : DB) (oid : String) (now : JsDate)
    (order : Order) (product : Product)
    (hfo : db.orders.find? (fun o => o.id == oid) = some order)
    (hp : order.status = OrderStatus.PENDING)
    (hfp : db.products.find? (fun p => p.id == order.productId) = some product)
    (hg : jsLt (jsNum (jsOrZero product.stock)) order.quantity = false) :
    approveOrder db oid now =
      (DB.mk
        (updateFirst (fun p => p.id == order.productId)
          (fun p => { p with stock := jsSub p.stock order.quantity }) db.products)
        (updateFirst (fun o => o.id == oid)
          (fun o => { o with
                      status := OrderStatus.APPROVED
                      approvedAt := some now
                      warrantyExpiry := (approvedOrderOf order product now).warrantyExpiry })
          db.orders),
       Except.ok (approvedOrderOf order product now)) := by
  unfold approveOrder
  rw [hfo]
  simp [hp, hfp, hg, approvedOrderOf]

/-- C9: a creation request whose `quantity` is a truthy value coercing to
a negative number (such as the string "-3") passes both the missing-field
check and the stock check against any non-negative stock, so a PENDING
order with negative quantity is stored; approving it then increases the
product's stock (by the absolute value of the quantity). -/
theorem negative_quantity_order (db : DB) (r : OrderReq) (newId : String)
    (now now2 : JsDate) (product : Product) (qn s : Int)
    (hname : strTruthy r.name = true) (hphone : strTruthy r.phone = true)
    (hpid : strTruthy r.productId = true)
    (hq : jsTruthy r.quantity = true)
    (hqn : jsToNumber r.quantity = some qn) (hneg : qn < 0)
    (hfp : db.products.find? (fun p => some p.id == r.productId) = some product)
    (hstock : product.stock = some s) (hs : 0 ≤ s)
    (hfresh : db.orders.find? (fun o => o.id == newId) = none) :
    createOrder db r newId now =
      (DB.mk db.products (db.orders ++ [mkPendingOrder r newId now]),
       Except.ok (mkPendingOrder r newId now)) ∧
    (mkPendingOrder r newId now).status = OrderStatus.PENDING ∧
    (mkPendingOrder r newId now).quantity = some qn ∧
    (approveOrder (DB.mk db.products (db.orders ++ [mkPendingOrder r newId now]))
        newId now2).1.products.find?
        (fun p => p.id == (mkPendingOrder r newId now).productId) =
      some { product with stock := some (s - qn) } ∧
    s < s - qn := by
  have hcond : (strTruthy r.name && strTruthy r.phone && strTruthy r.productId
      && jsTruthy r.quantity) = true := by
    rw [hname, hphone, hpid, hq]
    rfl
  have hqlt : jsLt product.stock (jsToNumber r.quantity) = false := by
    rw [hstock, hqn]
    simp [jsLt]
    omega
  have hcreate : createOrder db r newId now =
      (DB.mk db.products (db.orders ++ [mkPendingOrder r newId now]),
       Except.ok (mkPendingOrder r newId now)) := by
    unfold createOrder
    simp [hcond, hfp, hqlt]
  have hbeq0 := List.find?_some hfp
  have hbeq : (some product.id == r.productId) = true := hbeq0
  have hpid2 : r.productId = some product.id := (eq_of_beq hbeq).symm
  have hprodId : (mkPendingOrder r newId now).productId = product.id := by
    show r.productId.getD "" = product.id
    rw [hpid2]
    rfl
  have hfo2 : (db.orders ++ [mkPendingOrder r newId now]).find?
      (fun o => o.id == newId) = some (mkPendingOrder r newId now) := by
    rw [List.find?_append, hfresh]
    simp [List.find?, mkPendingOrder]
  have hfp2 : db.products.find?
      (fun p => p.id == (mkPendingOrder r newId now).productId) = some product := by
    rw [hprodId]
    rw [hpid2] at hfp
    exact hfp
  have hg2 : jsLt (jsNum (jsOrZero product.stock))
      (mkPendingOrder r newId now).quantity = false := by
    show jsLt (jsNum (jsOrZero product.stock)) (jsToNumber r.quantity) = false
    rw [hstock, hqn, jsOrZero_some]
    simp [jsLt, jsNum]
    omega
  have happrove := approve_ok_fwd
    (DB.mk db.products (db.orders ++ [mkPendingOrder r newId now])) newId now2
    (mkPendingOrder r newId now) product hfo2 rfl hfp2 hg2
  have hsub : jsSub product.stock (mkPendingOrder r newId now).quantity =
      some (s - qn) := by
    show jsSub product.stock (jsToNumber r.quantity) = some (s - qn)
    rw [hstock, hqn]
    rfl
  refine ⟨hcreate, rfl, hqn, ?_, by omega⟩
  rw [happrove]
  show (updateFirst (fun p => p.id == (mkPendingOrder r newId now).productId)
      (fun p => { p with stock := jsSub p.stock (mkPendingOrder r newId now).quantity })
      db.products).find?
      (fun p => p.id == (mkPendingOrder r newId now).productId) = _
  rw [find?_updateFirst (fun p => p.id == (mkPendingOrder r newId now).productId)
    (fun p => { p with stock := jsSub p.stock (mkPendingOrder r newId now).quantity })
    (fun a => rfl) db.products, hfp2]
  rw [Option.map_some']
  rw [hsub]

/-- Order request whose quantity is the string "-3". -/
def reqNeg : OrderReq :=
  { name := some "Eve", phone := some "999", productId := some "p1",
    quantity := .vStr "-3", serialNumber := none }

/-- C9 witness: quantity "-3" is accepted against stock 5, and approval
raises the stock from 5 to 8. -/
theorem negative_quantity_order_witness :
    createOrder dbW reqNeg "o9" d0 =
      (DB.mk dbW.products (dbW.orders ++ [mkPendingOrder reqNeg "o9" d0]),
       Except.ok (mkPendingOrder reqNeg "o9" d0)) ∧
    (mkPendingOrder reqNeg "o9" d0).status = OrderStatus.PENDING ∧
    (mkPendingOrder reqNeg "o9" d0).quantity = some (-3) ∧
    (approveOrder (DB.mk dbW.products (dbW.orders ++ [mkPendingOrder reqNeg "o9" d0]))
        "o9" d0).1.products.find?
        (fun p => p.id == (mkPendingOrder reqNeg "o9" d0).productId) =
      some { prodW with stock := some (5 - (-3)) } ∧
    (5 : Int) < 5 - (-3) :=
  negative_quantity_order dbW reqNeg "o9" d0 d0 prodW (-3) 5 (by decide) (by decide)
    (by decide) (by decide) (by decide) (by decide) (by decide) (by decide) (by decide)
    (by decide)

/-- Fixture APPROVED order with approval stamps, for the reject frame
claim. -/
def ordA : Order :=
  { id := "o5", name := "Dee", phone := "000", productId := "p1",
    quantity := some 1, serialNumber := none, status := .APPROVED,
    createdAt := d0, approvedAt := some d0, warrantyExpiry := some ⟨2024, 6, 15⟩ }

/-- Fixture document with the approved `ordA` and the pending `ordW`. -/
def dbA : DB := { products := [prodW], orders := [ordA, ordW] }

/-- C10: the reject route never touches the products (no stock
restoration) and rewrites at most one order — the first with the given
id — changing only its `status` and `rejectedAt` fields (the record
update keeps `approvedAt`, `warrantyExpiry`, and every other field);
orders with a different id are returned unchanged. -/
theorem reject_frame (db : DB) (oid : String) (now : JsDate) :
    (rejectOrder db oid now).1.products = db.products ∧
    (rejectOrder db oid now).1.orders.length = db.orders.length ∧
    (∀ (i : Nat) (hi : i < db.orders.length)
        (hi2 : i < (rejectOrder db oid now).1.orders.length),
      (db.orders.get ⟨i, hi⟩).id ≠ oid →
        (rejectOrder db oid now).1.orders.get ⟨i, hi2⟩ = db.orders.get ⟨i, hi⟩) ∧
    (∀ (i : Nat) (hi : i < db.orders.length)
        (hi2 : i < (rejectOrder db oid now).1.orders.length),
      (rejectOrder db oid now).1.orders.get ⟨i, hi2⟩ = db.orders.get ⟨i, hi⟩ ∨
        (rejectOrder db oid now).1.orders.get ⟨i, hi2⟩ =
          { db.orders.get ⟨i, hi⟩ with
            status := OrderStatus.REJECTED
            rejectedAt := some now }) := by
  cases hf : db.orders.find? (fun o => o.id == oid) with
  | none =>
    have hres : rejectOrder db oid now =
        (db, Except.error (ApiError.NotFound "Order not found")) := by
      unfold rejectOrder
      rw [hf]
    rw [hres]
    exact ⟨rfl, rfl, fun i hi hi2 _ => rfl, fun i hi hi2 => Or.inl rfl⟩
  | some order =>
    have hres : rejectOrder db oid now =
        (DB.mk db.products
          (updateFirst (fun o => o.id == oid)
            (fun o => { o with status := OrderStatus.REJECTED, rejectedAt := some now })
            db.orders),
         Except.ok { order with status := OrderStatus.REJECTED, rejectedAt := some now }) := by
      unfold rejectOrder
      rw [hf]
    rw [hres]
    refine ⟨rfl, length_updateFirst _ _ _, ?_, ?_⟩
    · intro i hi hi2 hne
      rcases get_updateFirst (fun o => o.id == oid)
          (fun o => { o with status := OrderStatus.REJECTED, rejectedAt := some now })
          db.orders i hi hi2 with h1 | ⟨hp1, h2⟩
      · exact h1
      · exact absurd (eq_of_beq hp1) hne
    · intro i hi hi2
      rcases get_updateFirst (fun o => o.id == oid)
          (fun o => { o with status := OrderStatus.REJECTED, rejectedAt := some now })
          db.orders i hi hi2 with h1 | ⟨hp1, h2⟩
      · exact Or.inl h1
      · exact Or.inr h2

/-- C10 witness: rejecting the approved fixture order leaves the products
and the unrelated order untouched. -/
theorem reject_frame_witness :
    (rejectOrder dbA "o5" d0).1.products = dbA.products ∧
    (rejectOrder dbA "o5" d0).1.orders.length = dbA.orders.length ∧
    (rejectOrder dbA "o5" d0).1.orders.get ⟨1, by decide⟩ =
      dbA.orders.get ⟨1, by decide⟩ :=
  ⟨(reject_frame dbA "o5" d0).1,
   (reject_frame dbA "o5" d0).2.1,
   (reject_frame dbA "o5" d0).2.2.1 1 (by decide) (by decide) (by decide)⟩
